import Mathlib

/-!
Verification of the rop3 railway-oriented-programming pipeline library.

Shallow embedding notes:
* Go `error` values are modelled by `Option Rop.GoErr` (a `nil` error is `none`).
* `uuid.New()` / `time.Now()` pairs are modelled by an explicit `Rop.Stamp`
  argument: any function of the source that constructs a fresh `Result`
  receives the stamp that the fresh construction uses, so claims about id /
  timestamp preservation quantify over all possible fresh stamps.
* The Go zero value of a type parameter `T` is modelled by `default` from an
  `Inhabited` instance (for `T = Nat` this is `0`, matching the Go `int`).
* Channels are modelled by lists of the values sent on them; goroutine
  pipelines that are deterministic in the absence of cancellation are
  embedded as functions on those lists.
-/

namespace Rop

/-- A non-nil Go error value, identified by its message. -/
inductive GoErr where
  | mk (msg : String)
deriving DecidableEq, Repr

/-- The pair (uuid.New(), time.Now().UTC()) drawn when a fresh Result is built. -/
structure Stamp where
  id : Nat
  createdAt : Nat
deriving DecidableEq, Repr

/-- Embeds `Result[T]` of pkg/rop/result.go: id, createdAt, result, err,
isSuccess, isCancel, hasResult, isProcessed. -/
structure Result (T : Type) where
  id : Nat
  createdAt : Nat
  result : T
  err : Option GoErr
  isSuccess : Bool
  isCancel : Bool
  hasResult : Bool
  isProcessed : Bool
deriving DecidableEq, Repr

/-- Embeds `rop.Success`: fresh stamp, value carried, success flags. -/
def Success {T : Type} (m : Stamp) (r : T) : Result T :=
  { id := m.id, createdAt := m.createdAt, result := r, err := none,
    isSuccess := true, isCancel := false, hasResult := true, isProcessed := false }

/-- Embeds `rop.Fail`: fresh stamp, error carried, no value (zero value of T). -/
def Fail {T : Type} [Inhabited T] (m : Stamp) (e : Option GoErr) : Result T :=
  { id := m.id, createdAt := m.createdAt, result := default, err := e,
    isSuccess := false, isCancel := false, hasResult := false, isProcessed := false }

/-- Embeds `rop.Cancel`: fresh stamp, error carried, cancel flag set. -/
def Cancel {T : Type} [Inhabited T] (m : Stamp) (e : Option GoErr) : Result T :=
  { id := m.id, createdAt := m.createdAt, result := default, err := e,
    isSuccess := false, isCancel := true, hasResult := false, isProcessed := false }

/-- Embeds `rop.CancelFrom`: type-converting copy of err, flags, stamp; the
result field and the isProcessed field are left at their zero values. -/
def CancelFrom {In Out : Type} [Inhabited Out] (from_ : Result In) : Result Out :=
  { id := from_.id, createdAt := from_.createdAt, result := default,
    err := from_.err, isSuccess := from_.isSuccess, isCancel := from_.isCancel,
    hasResult := from_.hasResult, isProcessed := false }

/-- Embeds `rop.SetProcessed`: copy of every field with isProcessed set. -/
def SetProcessed {T : Type} (r : Result T) : Result T :=
  { id := r.id, createdAt := r.createdAt, result := r.result, err := r.err,
    isSuccess := r.isSuccess, isCancel := r.isCancel, hasResult := r.hasResult,
    isProcessed := true }

/-- Embeds `rop.SuccessAndProcessed`. -/
def SuccessAndProcessed {T : Type} (m : Stamp) (r : T) : Result T :=
  SetProcessed (Success m r)

/-- Embeds `Result.IsSuccess`. -/
def Result.IsSuccess {T : Type} (r : Result T) : Bool := r.isSuccess

/-- Embeds `Result.IsCancel`. -/
def Result.IsCancel {T : Type} (r : Result T) : Bool := r.isCancel

/-- Embeds `Result.HasResult`. -/
def Result.HasResult {T : Type} (r : Result T) : Bool := r.hasResult

/-- Embeds `Result.IsEmpty`: nil error, not success, not cancel. -/
def Result.IsEmpty {T : Type} (r : Result T) : Bool :=
  r.err == none && !r.isCancel && !r.isSuccess

/-- Embeds `Result.IsFailure`: the negation of IsSuccess. -/
def Result.IsFailure {T : Type} (r : Result T) : Bool := !r.IsSuccess

/-- Embeds `Result.IsProcessed`. -/
def Result.IsProcessed {T : Type} (r : Result T) : Bool := r.isProcessed

/-- The zero value of `Result[T]` in Go: every field at its zero value. -/
def zeroResult (T : Type) [Inhabited T] : Result T :=
  { id := 0, createdAt := 0, result := default, err := none,
    isSuccess := false, isCancel := false, hasResult := false, isProcessed := false }

/-! Solo stages (pkg/rop/solo/solo.go).  Caller-supplied functions are
modelled with the ctx argument already applied.  Each function that can
construct at most one fresh Result takes one `Stamp` for that construction. -/

namespace Solo

/-- Embeds `solo.AndValidate`: on success run the validator and build a fresh
Success or Fail; otherwise return the input unchanged. -/
def AndValidate {T : Type} [Inhabited T] (input : Result T)
    (validate : T → Bool × String) (m : Stamp) : Result T :=
  if input.IsSuccess then
    let v := validate input.result
    if v.1 then Success m input.result
    else Fail m (some (GoErr.mk v.2))
  else input

/-- Embeds `solo.Validate`: wrap the raw value in a fresh Success, then
AndValidate (two fresh constructions, hence two stamps). -/
def Validate {T : Type} [Inhabited T] (input : T)
    (validate : T → Bool × String) (m1 m2 : Stamp) : Result T :=
  AndValidate (Success m1 input) validate m2

/-- Embeds `solo.Switch`: on success call the stage function; otherwise build
a fresh Cancel or Fail carrying the input error. -/
def Switch {In Out : Type} [Inhabited Out] (input : Result In)
    (onSuccess : In → Result Out) (m : Stamp) : Result Out :=
  if input.IsSuccess then onSuccess input.result
  else if input.IsCancel then Cancel m input.err
  else Fail m input.err

/-- Embeds `solo.Map`: on success build a fresh Success of the mapped value;
otherwise build a fresh Cancel or Fail carrying the input error. -/
def Map {In Out : Type} [Inhabited Out] (input : Result In)
    (onSuccess : In → Out) (m : Stamp) : Result Out :=
  if input.IsSuccess then Success m (onSuccess input.result)
  else if input.IsCancel then Cancel m input.err
  else Fail m input.err

/-- Embeds `solo.Try`: on success run the fallible function and build a fresh
Fail or Success; otherwise build a fresh Cancel or Fail with the input error. -/
def Try {In Out : Type} [Inhabited Out] (input : Result In)
    (onTryExecute : In → Out × Option GoErr) (m : Stamp) : Result Out :=
  if input.IsSuccess then
    let r := onTryExecute input.result
    match r.2 with
    | some e => Fail m (some e)
    | none => Success m r.1
  else if input.IsCancel then Cancel m input.err
  else Fail m input.err

/-- Embeds `solo.Tee`: the returned Result (always the input itself). -/
def Tee {T : Type} (input : Result T) : Result T := input

/-- The list of arguments `solo.Tee` passes to its side-effect callback:
called once with the input iff the input is a success. -/
def TeeCalls {T : Type} (input : Result T) : List (Result T) :=
  if input.IsSuccess then [input] else []

/-- Embeds `solo.FailOnError`: on success consult maybeErr; otherwise return
the input unchanged. -/
def FailOnError {T : Type} [Inhabited T] (input : Result T)
    (maybeErr : T → Option GoErr) (m : Stamp) : Result T :=
  if input.IsSuccess then
    match maybeErr input.result with
    | some e => Fail m (some e)
    | none => input
  else input

/-- The three-way handler record used by `solo.Finally` / mass finalizing. -/
structure FinallyHandlers (In Out : Type) where
  onSuccess : In → Out
  onError : Option GoErr → Out
  onCancel : Option GoErr → Out

/-- Embeds `solo.Finally`: success handler on success, cancel handler on
cancel, error handler otherwise. -/
def Finally {In Out : Type} (input : Result In) (h : FinallyHandlers In Out) : Out :=
  if input.IsSuccess then h.onSuccess input.result
  else if input.IsCancel then h.onCancel input.err
  else h.onError input.err

end Solo

/-! The tiny fluent chain (pkg/rop/tiny/tiny.go). -/

namespace Tiny

/-- Embeds `tiny.Chain[T]` (the ctx field carries no data used by Then). -/
structure Chain (T : Type) where
  res : Result T

/-- Embeds `tiny.Start`. -/
def Start {T : Type} (r : Result T) : Chain T := { res := r }

/-- Embeds `tiny.Chain.Then`: short-circuit when the held Result is a failure
or is marked processed; otherwise run the stage function. -/
def Chain.Then {T : Type} (c : Chain T) (onSuccess : T → Result T) : Chain T :=
  if c.res.IsFailure || c.res.IsProcessed then c
  else { res := onSuccess c.res.result }

end Tiny

/-! Execution-context options (pkg/rop/core/options.go). -/

namespace Core

/-- Embeds `core.ProcessOptions`. -/
structure ProcessOptions where
  ProcessRemaining : Bool
deriving DecidableEq, Repr

/-- The execution context as the drain strategies see it: the optional
ProcessOptions value stored under ProcessOptionKey (none when the caller
never called WithProcessOptions). -/
structure Ctx where
  processOptions : Option ProcessOptions
deriving DecidableEq, Repr

/-- Embeds `core.WithProcessOptions`: store an explicit ProcessOptions value. -/
def WithProcessOptions (_ctx : Ctx) (processRemaining : Bool) : Ctx :=
  { processOptions := some { ProcessRemaining := processRemaining } }

/-- Embeds `core.IsProcessRemainingEnabled`: the stored value when one is
present, else the caller-supplied default. -/
def IsProcessRemainingEnabled (ctx : Ctx) (defaultProcessRemaining : Bool) : Bool :=
  match ctx.processOptions with
  | some options => options.ProcessRemaining
  | none => defaultProcessRemaining

end Core

/-! Drain-policy strategies (the custom package cancel helpers).  Channel
output is modelled as the list of values sent on outCh. -/

namespace Custom

/-- The `ErrCancelled` sentinel: errors.New of the given message. -/
def ErrCancelled : GoErr := GoErr.mk "operation cancelled"

/-- Embeds `custom.CancelRemainingResult`: when the toggle (default true) is
enabled, emit one cancelled marker for the pending input. -/
def CancelRemainingResult {In Out : Type} [Inhabited Out] (ctx : Core.Ctx)
    (in_ : Result In) (m : Stamp) : List (Result Out) :=
  if Core.IsProcessRemainingEnabled ctx true then
    if in_.IsCancel then [CancelFrom in_]
    else [Cancel m (some ErrCancelled)]
  else []

/-- The loop body of `custom.CancelRemainingResults`: one marker per item,
with a fresh stamp drawn from the supply for each non-cancelled item. -/
def cancelRemainingLoop {In Out : Type} [Inhabited Out] :
    List (Result In) → (Nat → Stamp) → List (Result Out)
  | [], _ => []
  | in_ :: rest, fresh =>
    (if in_.IsCancel then CancelFrom in_ else Cancel (fresh 0) (some ErrCancelled)) ::
      cancelRemainingLoop rest (fun n => fresh (n + 1))

/-- Embeds `custom.CancelRemainingResults`: when the toggle (default true) is
enabled, drain the whole remaining input stream into cancelled markers. -/
def CancelRemainingResults {In Out : Type} [Inhabited Out] (ctx : Core.Ctx)
    (inputCh : List (Result In)) (fresh : Nat → Stamp) : List (Result Out) :=
  if Core.IsProcessRemainingEnabled ctx true then cancelRemainingLoop inputCh fresh
  else []

/-- Embeds `custom.CancelRemainingValue`: when enabled, emit brokenF applied
to the pending input. -/
def CancelRemainingValue {In Out : Type} (ctx : Core.Ctx) (in_ : Result In)
    (brokenF : Result In → Out) : List Out :=
  if Core.IsProcessRemainingEnabled ctx true then [brokenF in_] else []

/-- Embeds `custom.CancelRemainingValues`: when enabled, emit brokenF applied
to every remaining input. -/
def CancelRemainingValues {In Out : Type} (ctx : Core.Ctx)
    (inputCh : List (Result In)) (brokenF : Result In → Out) : List Out :=
  if Core.IsProcessRemainingEnabled ctx true then inputCh.map brokenF else []

/-- Embeds `custom.CancelResult`: when enabled, re-emit the finalized value. -/
def CancelResult {T : Type} (ctx : Core.Ctx) (out : T) : List T :=
  if Core.IsProcessRemainingEnabled ctx true then [out] else []

/-- Embeds `custom.CancelResults`: when enabled, re-emit every remaining
finalized value unchanged. -/
def CancelResults {T : Type} (ctx : Core.Ctx) (inputCh : List T) : List T :=
  if Core.IsProcessRemainingEnabled ctx true then inputCh else []

end Custom

/-! Mass stage wrappers (pkg/rop/mass/mass.go).  When the surrounding context
is never cancelled the two goroutines of each wrapper behave
deterministically: the producer sends exactly one solo result on ch and the
consumer forwards it to out.  These `...NoCancel` functions embed that
behaviour; the emitted stream is the list of values sent on out.  A Go panic
is modelled by `Except.error` carrying the panic message. -/

namespace Mass

/-- Embeds `mass.Validating` under a never-cancelled context: panic when the
input has no result value, else forward the solo.Validate result (which wraps
the raw value in a fresh Success, hence two stamps). -/
def ValidatingNoCancel {T : Type} [Inhabited T] (input : Result T)
    (validate : T → Bool × String) (m1 m2 : Stamp) :
    Except String (List (Result T)) :=
  if !input.HasResult then Except.error "no results!"
  else Except.ok [Solo.Validate input.result validate m1 m2]

/-- Embeds `mass.Switching` under a never-cancelled context: forward exactly
the solo.Switch result. -/
def SwitchingNoCancel {In Out : Type} [Inhabited Out] (input : Result In)
    (switchOnSuccess : In → Result Out) (m : Stamp) : List (Result Out) :=
  [Solo.Switch input switchOnSuccess m]

/-- Embeds `mass.Mapping` under a never-cancelled context: forward exactly
the solo.Map result. -/
def MappingNoCancel {In Out : Type} [Inhabited Out] (input : Result In)
    (mapOnSuccess : In → Out) (m : Stamp) : List (Result Out) :=
  [Solo.Map input mapOnSuccess m]

/-- Embeds `mass.Trying` under a never-cancelled context: forward exactly
the solo.Try result. -/
def TryingNoCancel {In Out : Type} [Inhabited Out] (input : Result In)
    (onTryExecute : In → Out × Option GoErr) (m : Stamp) : List (Result Out) :=
  [Solo.Try input onTryExecute m]

/-- Embeds `mass.Teeing` under a never-cancelled context: forward exactly
the solo.Tee result (the input itself). -/
def TeeingNoCancel {T : Type} (input : Result T) : List (Result T) :=
  [Solo.Tee input]

/-- Embeds the reduce loop of `mass.Finalizing` under a never-cancelled
context: every input is reduced by solo.Finally and sent, in order. -/
def FinalizingNoCancel {In Out : Type} :
    List (Result In) → Solo.FinallyHandlers In Out → List Out
  | [], _ => []
  | in_ :: rest, h => Solo.Finally in_ h :: FinalizingNoCancel rest h

/-! The Adapter contract (claim about mass wrappers racing cancellation).
An invocation of a wrapper such as `mass.Switching` spawns a producer
goroutine (guarded run of the solo stage, then close ch) and a consumer
goroutine (select over ch and ctx.Done, then close out).  The
nondeterminism of that race is captured by an explicit schedule. -/

/-- Which ready case the consumer select commits to. -/
inductive SelectPick where
  | fromChan
  | fromDone
deriving DecidableEq, Repr

/-- One resolution of the nondeterminism in a single adapter invocation:
whether ctx.Err() was already non-nil when the producer checked it, which
select case the consumer took, and whether the context ever cancels. -/
structure AdapterSchedule where
  producerSawCancel : Bool
  pick : SelectPick
  everCancelled : Bool
deriving DecidableEq, Repr

/-- Feasible schedules of the Go runtime: the Done case can only be taken if
the context ever cancels; a producer can only have seen a cancelled context
if the context ever cancels; and once the context is cancelled at entry the
producer (which checks first) necessarily sees it, cancellation being
level-triggered and irreversible. -/
def AdapterSchedule.Feasible (s : AdapterSchedule) (entryCancelled : Bool) : Prop :=
  (s.pick = SelectPick.fromDone → s.everCancelled = true) ∧
  (s.producerSawCancel = true → s.everCancelled = true) ∧
  (entryCancelled = true → s.producerSawCancel = true) ∧
  (s.everCancelled = false → s.pick = SelectPick.fromChan ∧ s.producerSawCancel = false)

/-- The observable outcome of one adapter invocation: whether the stage
function was invoked, the value delivered on out (if any), whether the
cancellation path was taken, and the arguments the onCancel callback was
invoked with (empty when the callback is nil). -/
structure AdapterRun (In Out : Type) where
  fInvoked : Bool
  delivered : Option (Result Out)
  cancelSignalled : Bool
  cbCalls : List (Result In)
deriving DecidableEq, Repr

/-- Embeds one invocation of `mass.Switching` as a function of the schedule.
Producer: if it saw cancellation it closes ch without running solo.Switch;
otherwise it computes solo.Switch (invoking the stage function exactly when
the input is a success) and sends it.  Consumer: receiving a closed ch or
taking the Done case runs the guarded onCancel callback; receiving the value
delivers it on out. -/
def SwitchingRun {In Out : Type} [Inhabited Out] (s : AdapterSchedule)
    (input : Result In) (switchOnSuccess : In → Result Out) (m : Stamp)
    (cbPresent : Bool) : AdapterRun In Out :=
  if s.producerSawCancel then
    { fInvoked := false, delivered := none, cancelSignalled := true,
      cbCalls := if cbPresent then [input] else [] }
  else
    match s.pick with
    | SelectPick.fromChan =>
      { fInvoked := input.IsSuccess, delivered := some (Solo.Switch input switchOnSuccess m),
        cancelSignalled := false, cbCalls := [] }
    | SelectPick.fromDone =>
      { fInvoked := input.IsSuccess, delivered := none, cancelSignalled := true,
        cbCalls := if cbPresent then [input] else [] }

end Mass

/-! The worker loop and pool (core.Locomotive, lite.Run). -/

namespace Core

/-- Embeds `core.Locomotive` under a never-cancelled context, with the engine
modelled by the list of values its channel yields per input.  Each iteration
pulls one input; if the engine channel closes without a value the loop
returns, otherwise the first value is forwarded and the loop continues. -/
def Locomotive {In Out : Type} (engine : Result In → List (Result Out)) :
    List (Result In) → List (Result Out)
  | [] => []
  | in_ :: rest =>
    match engine in_ with
    | [] => []
    | pr :: _ => pr :: Locomotive engine rest

/-- Events observable on the shared output stream of a worker pool of `n`
workers: a write by worker w, worker w terminating (its deferred wg.Done),
and the single close of the output stream. -/
inductive PoolEvent where
  | write (w : Nat)
  | done (w : Nat)
  | closeOut
deriving DecidableEq, Repr

/-- A trace respects the defer discipline of Locomotive: wg.Done runs at
worker exit, after every write that worker performed. -/
def WritesBeforeDone (t : List PoolEvent) : Prop :=
  ∀ (i j : Fin t.length) (w : Nat),
    t.get i = PoolEvent.done w → t.get j = PoolEvent.write w → j < i

/-- A trace respects the join-then-close goroutine of lite.Run / custom.Run:
the close of out happens only after wg.Wait, i.e. after every one of the n
workers has terminated. -/
def CloseAfterJoin (n : Nat) (t : List PoolEvent) : Prop :=
  ∀ (i : Fin t.length), t.get i = PoolEvent.closeOut →
    ∀ w, w < n → ∃ j : Fin t.length, j < i ∧ t.get j = PoolEvent.done w

/-- Only the n pool workers write to the shared output stream. -/
def WritersBounded (n : Nat) (t : List PoolEvent) : Prop :=
  ∀ (j : Fin t.length) (w : Nat), t.get j = PoolEvent.write w → w < n

end Core

namespace Lite

/-- Embeds `lite.Run` specialised to lines = 1 and a never-cancelled context:
a single Locomotive drains the input stream, and the output stream carries
exactly the values that loop forwarded. -/
def Run1 {T : Type} (engine : Result T → List (Result T))
    (inputCh : List (Result T)) : List (Result T) :=
  Core.Locomotive engine inputCh

end Lite

end Rop

open Rop

/-- Claim C9: IsFailure is exactly the negation of IsSuccess for every
Result; consequently every Result built by Cancel satisfies both IsCancel and
IsFailure, and the zero-value Result is empty (nil error, not success, not
cancel) and is also reported as a failure. -/
theorem claim_C9_isFailure_negation :
    (∀ (T : Type) (r : Result T), r.IsFailure = !r.IsSuccess) ∧
    (∀ (T : Type) (inst : Inhabited T) (m : Stamp) (e : Option GoErr),
      (Cancel (T := T) m e).IsCancel = true ∧ (Cancel (T := T) m e).IsFailure = true) ∧
    (∀ (T : Type) (inst : Inhabited T),
      (zeroResult T).IsEmpty = true ∧ (zeroResult T).IsFailure = true) := by
  refine ⟨fun T r => rfl, fun T inst m e => ⟨rfl, rfl⟩, fun T inst => ⟨?_, rfl⟩⟩
  simp [zeroResult, Result.IsEmpty]

/-- Claim C10: CancelFrom preserves id, createdAt, err and the isSuccess,
isCancel, hasResult flags of the source, but the isProcessed flag of the
output is always false, even when the source was marked processed. -/
theorem claim_C10_cancelFrom_drops_processed :
    ∀ (In Out : Type) (inst : Inhabited Out) (src : Result In),
      (CancelFrom src : Result Out).id = src.id ∧
      (CancelFrom src : Result Out).createdAt = src.createdAt ∧
      (CancelFrom src : Result Out).err = src.err ∧
      (CancelFrom src : Result Out).isSuccess = src.isSuccess ∧
      (CancelFrom src : Result Out).isCancel = src.isCancel ∧
      (CancelFrom src : Result Out).hasResult = src.hasResult ∧
      (CancelFrom src : Result Out).isProcessed = false := by
  intro In Out inst src
  exact ⟨rfl, rfl, rfl, rfl, rfl, rfl, rfl⟩

/-- Every Result built by the constructors satisfies the data-model
invariant that success and cancel never hold together (used as the
well-formedness hypothesis of the finalizer claim). -/
theorem constructors_wellformed :
    ∀ (T : Type) (inst : Inhabited T) (m : Stamp) (e : Option GoErr) (v : T)
      (In : Type) (src : Result In),
      ¬((Success m v).isSuccess = true ∧ (Success m v).isCancel = true) ∧
      ¬((Fail (T := T) m e).isSuccess = true ∧ (Fail (T := T) m e).isCancel = true) ∧
      ¬((Cancel (T := T) m e).isSuccess = true ∧ (Cancel (T := T) m e).isCancel = true) ∧
      ((SetProcessed src).isSuccess = src.isSuccess ∧
        (SetProcessed src).isCancel = src.isCancel) ∧
      ((CancelFrom src : Result T).isSuccess = src.isSuccess ∧
        (CancelFrom src : Result T).isCancel = src.isCancel) := by
  intro T inst m e v In src
  refine ⟨?_, ?_, ?_, ⟨rfl, rfl⟩, ⟨rfl, rfl⟩⟩ <;> simp [Success, Fail, Cancel]

/-- Claim C1 counterexample: a successful Result marked processed entering
solo.Switch is not forwarded unchanged; the supplied stage function is
invoked and its result is returned (two different stage functions give two
different outputs, and the processed flag is lost). -/
theorem claim_C1_counterexample :
    (SetProcessed (Success ⟨0, 0⟩ (5 : Nat))).IsProcessed = true ∧
    Solo.Switch (SetProcessed (Success ⟨0, 0⟩ (5 : Nat)))
        (fun _ => Fail ⟨1, 1⟩ (some (GoErr.mk "boom"))) ⟨2, 2⟩ ≠
      SetProcessed (Success ⟨0, 0⟩ (5 : Nat)) ∧
    Solo.Switch (SetProcessed (Success ⟨0, 0⟩ (5 : Nat)))
        (fun _ => Fail ⟨1, 1⟩ (some (GoErr.mk "boom"))) ⟨2, 2⟩ ≠
      Solo.Switch (SetProcessed (Success ⟨0, 0⟩ (5 : Nat)))
        (fun n => Success ⟨3, 3⟩ n) ⟨2, 2⟩ := by
  refine ⟨rfl, ?_, ?_⟩ <;> decide

/-- Claim C1 (amended): only the tiny package implements the processed
short-circuit; for every tiny Chain whose Result is marked processed,
Chain.Then returns the chain unchanged for every stage function (hence the
function is never invoked), regardless of success, failure or cancel state. -/
theorem claim_C1_tiny_then_short_circuits_processed :
    ∀ (T : Type) (c : Tiny.Chain T) (f : T → Result T),
      c.res.IsProcessed = true → c.Then f = c := by
  intro T c f h
  simp [Tiny.Chain.Then, h]

/-- Witness for claim C1: a processed successful chain is returned unchanged
by Then. -/
theorem claim_C1_tiny_then_short_circuits_processed_witness :
    (Tiny.Start (SetProcessed (Success ⟨0, 0⟩ (7 : Nat)))).res.IsProcessed = true ∧
    (Tiny.Start (SetProcessed (Success ⟨0, 0⟩ (7 : Nat)))).Then
        (fun _ => Fail ⟨1, 1⟩ none) =
      Tiny.Start (SetProcessed (Success ⟨0, 0⟩ (7 : Nat)))  :=
  ⟨by decide,
   claim_C1_tiny_then_short_circuits_processed Nat
     (Tiny.Start (SetProcessed (Success ⟨0, 0⟩ 7))) (fun _ => Fail ⟨1, 1⟩ none)
     (by decide)⟩

/-- Claim C2 counterexample: with no ProcessOptions stored in the context,
CancelRemainingResult is not a no-op; it emits one cancelled marker, because
the call sites pass true as the default for the toggle. -/
theorem claim_C2_counterexample :
    Custom.CancelRemainingResult ⟨none⟩ (Success ⟨0, 0⟩ (1 : Nat)) ⟨1, 1⟩ ≠
      ([] : List (Result Nat)) := by
  decide

/-- Claim C2 (amended): when the context carries no explicit ProcessOptions,
the drain strategies read the toggle with default true, so they do act (the
single-item strategy emits exactly one marker); the strategies are no-ops
exactly when the caller explicitly disabled the toggle, in which case all six
emit nothing. -/
theorem claim_C2_drain_default_is_enabled :
    (∀ (ctx : Core.Ctx), ctx.processOptions = none →
      Core.IsProcessRemainingEnabled ctx true = true ∧
      (∀ (In Out : Type) (inst : Inhabited Out) (r : Result In) (m : Stamp),
        (Custom.CancelRemainingResult ctx r m : List (Result Out)).length = 1)) ∧
    (∀ (ctx : Core.Ctx), Core.IsProcessRemainingEnabled ctx true = false →
      (∀ (In Out : Type) (inst : Inhabited Out) (r : Result In) (m : Stamp),
        (Custom.CancelRemainingResult ctx r m : List (Result Out)) = []) ∧
      (∀ (In Out : Type) (inst : Inhabited Out) (rs : List (Result In)) (fresh : Nat → Stamp),
        (Custom.CancelRemainingResults ctx rs fresh : List (Result Out)) = []) ∧
      (∀ (In Out : Type) (r : Result In) (brokenF : Result In → Out),
        Custom.CancelRemainingValue ctx r brokenF = []) ∧
      (∀ (In Out : Type) (rs : List (Result In)) (brokenF : Result In → Out),
        Custom.CancelRemainingValues ctx rs brokenF = []) ∧
      (∀ (T : Type) (v : T), Custom.CancelResult ctx v = []) ∧
      (∀ (T : Type) (vs : List T), Custom.CancelResults ctx vs = [])) := by
  constructor
  · intro ctx h
    have hen : Core.IsProcessRemainingEnabled ctx true = true := by
      simp [Core.IsProcessRemainingEnabled, h]
    refine ⟨hen, ?_⟩
    intro In Out inst r m
    simp only [Custom.CancelRemainingResult, hen, if_true]
    by_cases hc : r.IsCancel <;> simp [hc]
  · intro ctx h
    refine ⟨?_, ?_, ?_, ?_, ?_, ?_⟩ <;> intros <;>
      simp [Custom.CancelRemainingResult, Custom.CancelRemainingResults,
        Custom.CancelRemainingValue, Custom.CancelRemainingValues,
        Custom.CancelResult, Custom.CancelResults, h]

/-- Witness for claim C2: concrete contexts, one with no options (the single
strategy emits one marker) and one explicitly disabled (it emits nothing). -/
theorem claim_C2_drain_default_is_enabled_witness :
    (Custom.CancelRemainingResult ⟨none⟩
        (Success ⟨0, 0⟩ (1 : Nat)) ⟨1, 1⟩ : List (Result Nat)).length = 1 ∧
    (Custom.CancelRemainingResult ⟨some ⟨false⟩⟩
        (Success ⟨0, 0⟩ (1 : Nat)) ⟨1, 1⟩ : List (Result Nat)) = [] := by
  constructor
  · exact (claim_C2_drain_default_is_enabled.1 ⟨none⟩ rfl).2 Nat Nat
      inferInstance (Success ⟨0, 0⟩ 1) ⟨1, 1⟩
  · exact (claim_C2_drain_default_is_enabled.2 ⟨some ⟨false⟩⟩ rfl).1 Nat Nat
      inferInstance (Success ⟨0, 0⟩ 1) ⟨1, 1⟩

/-- Claim C3 counterexample: a Cancelled Result entering solo.Switch does not
pass through with its unique id unchanged; the output is a freshly
constructed Result whose id comes from a new uuid draw. -/
theorem claim_C3_counterexample :
    (Solo.Switch (Cancel ⟨0, 0⟩ (some (GoErr.mk "stop")) : Result Nat)
        (fun n => Success ⟨9, 9⟩ n) ⟨1, 1⟩).id ≠
      (Cancel ⟨0, 0⟩ (some (GoErr.mk "stop")) : Result Nat).id := by
  decide

/-- Claim C3 (amended): for every Failed or Cancelled Result entering a
non-terminal solo stage the supplied function is never invoked (the output is
the same for every supplied function) and the error and the fail/cancel
distinction are preserved; AndValidate and Tee return the input itself (id
preserved), while Switch, Map and Try return a freshly constructed Result
whose id and timestamp come from a new draw; the mass Switching wrapper
forwards the solo result without invoking the function, and mass.Validating
instead panics with "no results!" on any input carrying no value. -/
theorem claim_C3_nonsuccess_passthrough :
    ∀ (In Out : Type) (instIn : Inhabited In) (instOut : Inhabited Out)
      (input : Result In) (m : Stamp),
      input.IsSuccess = false →
      (∀ v, Solo.AndValidate input v m = input) ∧
      (∀ (f g : In → Result Out), Solo.Switch input f m = Solo.Switch input g m) ∧
      (∀ (f : In → Result Out),
        (Solo.Switch input f m).err = input.err ∧
        (Solo.Switch input f m).isCancel = input.isCancel ∧
        (Solo.Switch input f m).isSuccess = false ∧
        (Solo.Switch input f m).id = m.id ∧
        (Solo.Switch input f m).createdAt = m.createdAt) ∧
      (∀ (f g : In → Out), Solo.Map input f m = Solo.Map input g m) ∧
      (∀ (f : In → Out),
        (Solo.Map input f m).err = input.err ∧
        (Solo.Map input f m).isCancel = input.isCancel ∧
        (Solo.Map input f m).id = m.id) ∧
      (∀ (f g : In → Out × Option GoErr), Solo.Try input f m = Solo.Try input g m) ∧
      (∀ (f : In → Out × Option GoErr),
        (Solo.Try input f m).err = input.err ∧
        (Solo.Try input f m).isCancel = input.isCancel ∧
        (Solo.Try input f m).id = m.id) ∧
      (Solo.Tee input = input ∧ Solo.TeeCalls input = []) ∧
      (input.HasResult = false →
        ∀ v m2, Mass.ValidatingNoCancel input v m m2 = Except.error "no results!") ∧
      (∀ (f g : In → Result Out),
        Mass.SwitchingNoCancel input f m = Mass.SwitchingNoCancel input g m) := by
  intro In Out instIn instOut input m h
  refine ⟨?_, ?_, ?_, ?_, ?_, ?_, ?_, ⟨?_, ?_⟩, ?_, ?_⟩
  · intro v; simp [Solo.AndValidate, h]
  · intro f g; simp [Solo.Switch, h]
  · intro f
    by_cases hc : input.IsCancel <;>
      simp [Solo.Switch, h, hc, Cancel, Fail, Result.IsCancel] at * <;>
      simp [Solo.Switch, h, hc, Cancel, Fail] <;>
      simp [Result.IsCancel] at hc <;> simp [hc]
  · intro f g; simp [Solo.Map, h]
  · intro f
    by_cases hc : input.IsCancel <;>
      simp [Solo.Map, h, hc, Cancel, Fail] <;>
      simp [Result.IsCancel] at hc <;> simp [hc]
  · intro f g; simp [Solo.Try, h]
  · intro f
    by_cases hc : input.IsCancel <;>
      simp [Solo.Try, h, hc, Cancel, Fail] <;>
      simp [Result.IsCancel] at hc <;> simp [hc]
  · rfl
  · simp [Solo.TeeCalls, h]
  · intro hr v m2; simp [Mass.ValidatingNoCancel, hr]
  · intro f g; simp [Mass.SwitchingNoCancel, Solo.Switch, h]

/-- Witness for claim C3: a concrete Cancelled input passes with its error
and cancel flag preserved and fresh stamp, and two different stage functions
yield the same Switch output. -/
theorem claim_C3_nonsuccess_passthrough_witness :
    Solo.Switch (Cancel ⟨0, 0⟩ (some (GoErr.mk "stop")) : Result Nat)
        (fun n => Success ⟨9, 9⟩ n) ⟨1, 1⟩ =
      Solo.Switch (Cancel ⟨0, 0⟩ (some (GoErr.mk "stop")) : Result Nat)
        (fun _ => Fail ⟨8, 8⟩ none) ⟨1, 1⟩ ∧
    (Solo.Switch (Cancel ⟨0, 0⟩ (some (GoErr.mk "stop")) : Result Nat)
        (fun n => Success ⟨9, 9⟩ n) ⟨1, 1⟩).err = some (GoErr.mk "stop") ∧
    Mass.ValidatingNoCancel (Cancel ⟨0, 0⟩ (some (GoErr.mk "stop")) : Result Nat)
        (fun _ => (true, "")) ⟨1, 1⟩ ⟨2, 2⟩ = Except.error "no results!" := by
  have h := claim_C3_nonsuccess_passthrough Nat Nat inferInstance inferInstance
    (Cancel ⟨0, 0⟩ (some (GoErr.mk "stop"))) ⟨1, 1⟩ (by decide)
  refine ⟨h.2.1 _ _, ?_, ?_⟩
  · exact (h.2.2.1 (fun n => Success ⟨9, 9⟩ n)).1
  · exact h.2.2.2.2.2.2.2.2.1 (by decide) (fun _ => (true, "")) ⟨2, 2⟩

/-- Claim C4: for every well-formed input (no Result is both success and
cancel, as every constructor guarantees), solo.Finally applies exactly the
success handler on success, exactly the cancel handler on cancel, and exactly
the error handler otherwise; and under a never-cancelled context
mass.Finalizing forwards the handler result of every input in order, so no
Failed or Cancelled Result is dropped. -/
theorem claim_C4_finalizer_three_way :
    ∀ (In Out : Type) (r : Result In) (h : Solo.FinallyHandlers In Out),
      ¬(r.isSuccess = true ∧ r.isCancel = true) →
      ((r.isSuccess = true → Solo.Finally r h = h.onSuccess r.result) ∧
       (r.isCancel = true → Solo.Finally r h = h.onCancel r.err) ∧
       (r.isSuccess = false → r.isCancel = false →
         Solo.Finally r h = h.onError r.err)) ∧
      (∀ (inputs : List (Result In)),
        Mass.FinalizingNoCancel inputs h = inputs.map (fun i => Solo.Finally i h) ∧
        (Mass.FinalizingNoCancel inputs h).length = inputs.length) := by
  intro In Out r h hwf
  constructor
  · refine ⟨?_, ?_, ?_⟩
    · intro hs; simp [Solo.Finally, Result.IsSuccess, hs]
    · intro hc
      have hs : r.isSuccess = false := by
        by_contra hx
        exact hwf ⟨by simpa using hx, hc⟩
      simp [Solo.Finally, Result.IsSuccess, Result.IsCancel, hs, hc]
    · intro hs hc
      simp [Solo.Finally, Result.IsSuccess, Result.IsCancel, hs, hc]
  · intro inputs
    constructor
    · induction inputs with
      | nil => rfl
      | cons a rest ih => simp [Mass.FinalizingNoCancel, ih]
    · induction inputs with
      | nil => rfl
      | cons a rest ih => simp [Mass.FinalizingNoCancel, ih]

/-- Witness for claim C4: a concrete Cancelled Result reaches the cancel
handler and a mixed stream of three results yields three outputs in order. -/
theorem claim_C4_finalizer_three_way_witness :
    Solo.Finally (Cancel ⟨0, 0⟩ (some (GoErr.mk "stop")) : Result Nat)
        ⟨fun v => v, fun _ => 100, fun _ => 200⟩ = 200 ∧
    Mass.FinalizingNoCancel
        [Success ⟨1, 1⟩ (5 : Nat), Fail ⟨2, 2⟩ (some (GoErr.mk "bad")),
          Cancel ⟨3, 3⟩ (some (GoErr.mk "stop"))]
        (⟨fun v => v, fun _ => 100, fun _ => 200⟩ : Solo.FinallyHandlers Nat Nat) =
      [5, 100, 200] := by
  have h := claim_C4_finalizer_three_way Nat Nat
    (Cancel ⟨0, 0⟩ (some (GoErr.mk "stop")))
    ⟨fun v => v, fun _ => 100, fun _ => 200⟩ (by decide)
  have h2 := claim_C4_finalizer_three_way Nat Nat
    (Cancel ⟨0, 0⟩ (some (GoErr.mk "stop")))
    (⟨fun v => v, fun _ => 100, fun _ => 200⟩ : Solo.FinallyHandlers Nat Nat)
    (by decide)
  constructor
  · have := h.1.2.1 (by decide)
    simpa using this
  · have := (h2.2 [Success ⟨1, 1⟩ (5 : Nat), Fail ⟨2, 2⟩ (some (GoErr.mk "bad")),
      Cancel ⟨3, 3⟩ (some (GoErr.mk "stop"))]).1
    simp only [this]
    decide

/-- Claim C5: with the drain toggle enabled, CancelRemainingResult emits
exactly one Cancelled marker for the pending input, preserving the original
error and id when the input was already Cancelled and substituting the
generic "operation cancelled" sentinel otherwise; CancelRemainingResults
applies that single-item rule to every item of the remaining stream. -/
theorem claim_C5_drain_markers :
    ∀ (In Out : Type) (instOut : Inhabited Out) (ctx : Core.Ctx),
      Core.IsProcessRemainingEnabled ctx true = true →
      (∀ (r : Result In) (m : Stamp),
        (Custom.CancelRemainingResult ctx r m : List (Result Out)).length = 1 ∧
        (r.IsCancel = true →
          (Custom.CancelRemainingResult ctx r m : List (Result Out)) = [CancelFrom r] ∧
          (CancelFrom r : Result Out).isCancel = true ∧
          (CancelFrom r : Result Out).err = r.err ∧
          (CancelFrom r : Result Out).id = r.id) ∧
        (r.IsCancel = false →
          (Custom.CancelRemainingResult ctx r m : List (Result Out)) =
            [Cancel m (some Custom.ErrCancelled)] ∧
          (Cancel (T := Out) m (some Custom.ErrCancelled)).isCancel = true ∧
          (Cancel (T := Out) m (some Custom.ErrCancelled)).err =
            some Custom.ErrCancelled)) ∧
      (∀ (r : Result In) (rest : List (Result In)) (fresh : Nat → Stamp),
        (Custom.CancelRemainingResults ctx (r :: rest) fresh : List (Result Out)) =
          Custom.CancelRemainingResult ctx r (fresh 0) ++
            Custom.CancelRemainingResults ctx rest (fun n => fresh (n + 1))) ∧
      (∀ (rs : List (Result In)) (fresh : Nat → Stamp),
        (Custom.CancelRemainingResults ctx rs fresh : List (Result Out)).length = rs.length) := by
  intro In Out instOut ctx hen
  refine ⟨?_, ?_, ?_⟩
  · intro r m
    refine ⟨?_, ?_, ?_⟩
    · simp only [Custom.CancelRemainingResult, hen, if_true]
      by_cases hc : r.IsCancel <;> simp [hc]
    · intro hc
      simp [Custom.CancelRemainingResult, hen, hc, CancelFrom]
      simpa [Result.IsCancel] using hc
    · intro hc
      simp [Custom.CancelRemainingResult, hen, hc, Cancel]
  · intro r rest fresh
    simp only [Custom.CancelRemainingResults, Custom.CancelRemainingResult,
      Custom.cancelRemainingLoop, hen, if_true]
    by_cases hc : r.IsCancel <;> simp [hc]
  · intro rs
    induction rs with
    | nil => intro fresh; simp [Custom.CancelRemainingResults, hen,
        Custom.cancelRemainingLoop]
    | cons a rest ih =>
      intro fresh
      simp only [Custom.CancelRemainingResults, hen, if_true,
        Custom.cancelRemainingLoop, List.length_cons]
      have := ih (fun n => fresh (n + 1))
      simp only [Custom.CancelRemainingResults, hen, if_true] at this
      simp [this]

/-- Witness for claim C5: an explicitly enabled context draining one already
Cancelled input (error and id preserved) and one pending success (sentinel
error), and a two-element stream draining to two markers. -/
theorem claim_C5_drain_markers_witness :
    Custom.CancelRemainingResult ⟨some ⟨true⟩⟩
        (Cancel ⟨4, 4⟩ (some (GoErr.mk "stop")) : Result Nat) ⟨7, 7⟩ =
      [(CancelFrom (Cancel ⟨4, 4⟩ (some (GoErr.mk "stop")) : Result Nat) : Result Nat)] ∧
    Custom.CancelRemainingResult ⟨some ⟨true⟩⟩
        (Success ⟨5, 5⟩ (3 : Nat)) ⟨8, 8⟩ =
      [(Cancel ⟨8, 8⟩ (some Custom.ErrCancelled) : Result Nat)] ∧
    (Custom.CancelRemainingResults ⟨some ⟨true⟩⟩
        [Success ⟨5, 5⟩ (3 : Nat), Cancel ⟨4, 4⟩ (some (GoErr.mk "stop"))]
        (fun n => ⟨10 + n, 10 + n⟩) : List (Result Nat)).length = 2 := by
  have h := claim_C5_drain_markers Nat Nat inferInstance ⟨some ⟨true⟩⟩ rfl
  refine ⟨?_, ?_, ?_⟩
  · exact ((h.1 (Cancel ⟨4, 4⟩ (some (GoErr.mk "stop"))) ⟨7, 7⟩).2.1 (by decide)).1
  · exact ((h.1 (Success ⟨5, 5⟩ 3) ⟨8, 8⟩).2.2 (by decide)).1
  · exact h.2.2 [Success ⟨5, 5⟩ 3, Cancel ⟨4, 4⟩ (some (GoErr.mk "stop"))]
      (fun n => ⟨10 + n, 10 + n⟩)

/-- Claim C6: for every feasible resolution of one mass.Switching invocation,
exactly one of delivery and the cancellation path occurs (delivery happens
iff the cancel path was not taken); when the context is already cancelled at
entry the stage function is not invoked and the cancel path is taken with
nothing delivered; a nil onCancel callback is never invoked (cancellation is
silent) and no callback fires on the delivery path. -/
theorem claim_C6_adapter_exactly_one :
    ∀ (In Out : Type) (instOut : Inhabited Out) (s : Mass.AdapterSchedule)
      (entryCancelled : Bool) (input : Result In) (f : In → Result Out)
      (m : Stamp) (cbPresent : Bool),
      s.Feasible entryCancelled →
      ((Mass.SwitchingRun s input f m cbPresent).delivered.isSome = true ↔
        (Mass.SwitchingRun s input f m cbPresent).cancelSignalled = false) ∧
      (entryCancelled = true →
        (Mass.SwitchingRun s input f m cbPresent).fInvoked = false ∧
        (Mass.SwitchingRun s input f m cbPresent).cancelSignalled = true ∧
        (Mass.SwitchingRun s input f m cbPresent).delivered = none) ∧
      (cbPresent = false → (Mass.SwitchingRun s input f m cbPresent).cbCalls = []) ∧
      ((Mass.SwitchingRun s input f m cbPresent).cancelSignalled = false →
        (Mass.SwitchingRun s input f m cbPresent).cbCalls = []) := by
  intro In Out instOut s entryCancelled input f m cbPresent hfea
  refine ⟨?_, ?_, ?_, ?_⟩
  · by_cases hp : s.producerSawCancel <;>
      cases hpick : s.pick <;> simp [Mass.SwitchingRun, hp, hpick]
  · intro he
    have hp : s.producerSawCancel = true := hfea.2.2.1 he
    simp [Mass.SwitchingRun, hp]
  · intro hcb
    by_cases hp : s.producerSawCancel <;>
      cases hpick : s.pick <;> simp [Mass.SwitchingRun, hp, hpick, hcb]
  · intro hnc
    by_cases hp : s.producerSawCancel <;>
      cases hpick : s.pick <;>
        simp [Mass.SwitchingRun, hp, hpick] at hnc ⊢ <;>
          simp [hnc]

/-- Witness for claim C6: a feasible entry-cancelled schedule with a present
callback yields the silent-delivery-free cancel path without invoking the
stage function, and a feasible uncancelled schedule delivers. -/
theorem claim_C6_adapter_exactly_one_witness :
    (Mass.SwitchingRun ⟨true, Mass.SelectPick.fromChan, true⟩
        (Success ⟨0, 0⟩ (2 : Nat)) (fun n => Success ⟨1, 1⟩ n) ⟨2, 2⟩
        true).fInvoked = false ∧
    (Mass.SwitchingRun ⟨false, Mass.SelectPick.fromChan, false⟩
        (Success ⟨0, 0⟩ (2 : Nat)) (fun n => Success ⟨1, 1⟩ n) ⟨2, 2⟩
        true).delivered.isSome = true := by
  constructor
  · exact ((claim_C6_adapter_exactly_one Nat Nat inferInstance
      ⟨true, Mass.SelectPick.fromChan, true⟩ true (Success ⟨0, 0⟩ 2)
      (fun n => Success ⟨1, 1⟩ n) ⟨2, 2⟩ true
      (by simp [Mass.AdapterSchedule.Feasible])).2.1 rfl).1
  · exact ((claim_C6_adapter_exactly_one Nat Nat inferInstance
      ⟨false, Mass.SelectPick.fromChan, false⟩ false (Success ⟨0, 0⟩ 2)
      (fun n => Success ⟨1, 1⟩ n) ⟨2, 2⟩ true
      (by simp [Mass.AdapterSchedule.Feasible])).1).2 (by decide)

/-- Claim C7: a single-worker pipeline (lite.Run with lines = 1) under a
never-cancelled context, whose engine delivers exactly one stage result per
input, produces exactly the per-item stage results in input order. -/
theorem claim_C7_single_worker_preserves_order :
    ∀ (T : Type) (engine : Result T → List (Result T)) (f : Result T → Result T),
      (∀ r, engine r = [f r]) →
      ∀ (inputCh : List (Result T)), Lite.Run1 engine inputCh = inputCh.map f := by
  intro T engine f h inputCh
  induction inputCh with
  | nil => rfl
  | cons a rest ih =>
    simp only [Lite.Run1, Core.Locomotive, h a, List.map_cons]
    simpa [Lite.Run1] using ih

/-- Witness for claim C7: a concrete two-element stream through a one-line
pipeline whose engine marks each result processed comes out in input order. -/
theorem claim_C7_single_worker_preserves_order_witness :
    Lite.Run1 (fun r => [SetProcessed r])
        [Success ⟨0, 0⟩ (1 : Nat), Fail ⟨1, 1⟩ (some (GoErr.mk "bad"))] =
      [SetProcessed (Success ⟨0, 0⟩ (1 : Nat)),
        SetProcessed (Fail ⟨1, 1⟩ (some (GoErr.mk "bad")))] := by
  have h := claim_C7_single_worker_preserves_order Nat
    (fun r => [SetProcessed r]) SetProcessed (fun _ => rfl)
    [Success ⟨0, 0⟩ (1 : Nat), Fail ⟨1, 1⟩ (some (GoErr.mk "bad"))]
  simpa using h

/-- Claim C8: in every pool trace that respects the defer discipline of the
worker loop (each worker terminates only after all its writes) and the
join-then-close goroutine (the output closes only after every one of the n
workers has terminated), every write to the shared output stream by a pool
worker happens strictly before the close. -/
theorem claim_C8_no_write_after_close :
    ∀ (n : Nat) (t : List Core.PoolEvent),
      Core.WritesBeforeDone t → Core.CloseAfterJoin n t →
      Core.WritersBounded n t →
      ∀ (i j : Fin t.length) (w : Nat),
        t.get i = Core.PoolEvent.closeOut → t.get j = Core.PoolEvent.write w →
        j < i := by
  intro n t hwd hcj hwb i j w hi hj
  have hw : w < n := hwb j w hj
  obtain ⟨k, hk, hkd⟩ := hcj i hi w hw
  exact lt_trans (hwd k j w hkd hj) hk

/-- Witness for claim C8: a concrete one-worker trace (write, done, close)
in which the write precedes the close. -/
theorem claim_C8_no_write_after_close_witness :
    (⟨0, by decide⟩ : Fin 3) < (⟨2, by decide⟩ : Fin 3) :=
  claim_C8_no_write_after_close 1
    [Core.PoolEvent.write 0, Core.PoolEvent.done 0, Core.PoolEvent.closeOut]
    (by
      intro i j w hi hj
      fin_cases i
      · exact absurd hi (by simp)
      · fin_cases j
        · decide
        · exact absurd hj (by simp)
        · exact absurd hj (by simp)
      · exact absurd hi (by simp))
    (by
      intro i hi w hw
      have hw0 : w = 0 := by omega
      subst hw0
      fin_cases i
      · exact absurd hi (by simp)
      · exact absurd hi (by simp)
      · exact ⟨⟨1, by decide⟩, by decide, by decide⟩)
    (by
      intro j w hj
      fin_cases j <;> simp at hj <;> omega)
    ⟨2, by decide⟩ ⟨0, by decide⟩ 0 (by decide) (by decide)
